import Mathlib

/-!
Shallow embedding of the snow-harvester main module (`src/main/Main.js`).

The program is a polling loop that, each cycle, builds harvest candidate
records from on-chain strategy contracts, enriches them in stages
(transaction intent, economic gain via Pangolin pool reserves, gas
estimate), filters them by gas-cost versus treasury-gain, and submits the
surviving harvest transactions with sequential nonces.

Chain interaction (web3 calls) is modelled by an explicit environment
`ChainEnv` of (possibly failing) functions; arbitrary-precision unsigned
`BN` values are modelled as `Nat`; a rejected promise is `Except.error`.
BN division by zero throws in the source library, so division is the
fallible `bnDiv`.  Contract handles are identified by their address
string.
-/

set_option autoImplicit false

namespace SnowHarvester

/-- Failure class for a rejected promise or a thrown BN error. -/
inductive Err where
  /-- BN.js assertion failure on division by zero. -/
  | divisionByZero
  /-- Any network / contract-call rejection. -/
  | network
deriving DecidableEq, Repr

/-- Result of `getReserves()` on a Pangolin pool: the JS code destructures
the fields `_reserve0` and `_reserve1`. -/
structure Reserves where
  reserve0 : Nat
  reserve1 : Nat
deriving DecidableEq, Repr

/-- An unsent transaction intent, `strategy.methods.harvest()`: bound to the
strategy contract it was created from. -/
structure Tx where
  strategyAddr : String
deriving DecidableEq, Repr

/-- Receipt of a successful `tx.send(...)`; the reporter reads `.to`
(here `toAddress`, since `to` is a keyword) and `.transactionHash`. -/
structure TxReceipt where
  toAddress : String
  transactionHash : String
deriving DecidableEq, Repr

/-- The override object passed to `tx.send({from, gas, gasPrice, nonce})`. -/
structure SendParams where
  sender : String
  gas : Nat
  gasPrice : Nat
  nonce : Nat
deriving DecidableEq, Repr

/-- Observable chain side effects of the executor. -/
inductive ChainEvent where
  /-- One `web3.eth.getTransactionCount` read and its result. -/
  | readTxCount (result : Nat)
  /-- One invocation of the submission primitive `tx.send`. -/
  | send (txStrategy : String) (params : SendParams)
deriving DecidableEq, Repr

/-- Whether an event is a transaction-count read. -/
def ChainEvent.isReadTxCount : ChainEvent → Bool
  | .readTxCount _ => true
  | .send _ _ => false

/-- Whether an event is an invocation of the submission primitive. -/
def ChainEvent.isSend : ChainEvent → Bool
  | .readTxCount _ => false
  | .send _ _ => true

/-- One settled entry of `Promise.allSettled`: fulfilled (with the promise
value, which is `undefined` = `none` on the dry-run path) or rejected. -/
inductive Settled where
  | fulfilled (value : Option TxReceipt)
  | rejected (reason : Err)
deriving DecidableEq, Repr

/-- The environment of chain reads/writes and configuration the program
runs against (web3 + CONFIG).  Each field models one external call. -/
structure ChainEnv where
  /-- `CONFIG.TEST_MODE`. -/
  testMode : Bool
  /-- `CONFIG.WALLET.ADDRESS`. -/
  walletAddress : String
  /-- `web3.utils.isAddress`. -/
  isAddress : String → Bool
  /-- `controllerContract.methods.globes(want).call()`. -/
  globes : String → Except Err String
  /-- `controllerContract.methods.strategies(want).call()`. -/
  strategies : String → Except Err String
  /-- `CONFIG.STRATEGY_NAME[addr]` lookup (may be absent). -/
  strategyName : String → Option String
  /-- `strategyContract.methods.getHarvestable().call()`, by strategy address. -/
  getHarvestable : String → Except Err Nat
  /-- `strategyContract.methods.performanceTreasuryFee().call()`, by strategy address. -/
  performanceTreasuryFee : String → Except Err Nat
  /-- `poolContract.methods.getReserves().call()`, by pool address. -/
  getReserves : String → Except Err Reserves
  /-- `tx.estimateGas({from})`. -/
  estimateGas : Tx → String → Except Err Nat
  /-- `web3.eth.getGasPrice()`. -/
  getGasPrice : Except Err Nat
  /-- `web3.eth.getTransactionCount(addr)`. -/
  getTransactionCount : String → Except Err Nat
  /-- `tx.send({from, gas, gasPrice, nonce})`. -/
  send : Tx → SendParams → Except Err TxReceipt

/-- One entry of `initContracts`' contract cache: the vault (snowglobe) and
strategy contract handles resolved for one tracked want address. -/
structure Target where
  globes : List String
  strategies : List String
deriving DecidableEq, Repr

/-- Candidate harvest record as built by `createHarvests`. -/
structure Harvest0 where
  strategy : String
  name : Option String
  harvestable : Nat
  treasuryFee : Nat
  treasuryMax : Nat
deriving DecidableEq, Repr

/-- Record after `addHarvestTx`: the previous fields plus `tx`. -/
structure Harvest1 extends Harvest0 where
  tx : Tx
deriving DecidableEq, Repr

/-- Record after `addHarvestGain`: the previous fields plus the two gains. -/
structure Harvest2 extends Harvest1 where
  gainWAVAX : Nat
  gainUSDT : Nat
deriving DecidableEq, Repr

/-- Record after `addHarvestGas`: the previous fields plus gas data. -/
structure Harvest3 extends Harvest2 where
  gas : Nat
  gasPrice : Nat
deriving DecidableEq, Repr

/-- BN.js division: truncating on naturals, and throws on a zero divisor. -/
def bnDiv (a b : Nat) : Except Err Nat :=
  if b = 0 then .error .divisionByZero else .ok (a / b)

/-- Modelled from the spec: `Util.convertViaPool` (the `Util.js` module is
not part of the given sources).  Constant-product spot valuation
`quantity * reserveOut / reserveIn` with truncating integer division,
failing with a division-class error when `reserveIn` is zero. -/
def convertViaPool (quantity reserveIn reserveOut : Nat) : Except Err Nat :=
  if reserveIn = 0 then .error .divisionByZero
  else .ok (quantity * reserveOut / reserveIn)

/-- Hard-coded Pangolin PNG/WAVAX pool address (reserve0 is PNG, reserve1 is WAVAX). -/
def PANGOLIN_PNG_WAVAX_POOL_ADDRESS : String :=
  "0xd7538cabbf8605bde1f4901b47b8d42c61de0367"

/-- Hard-coded Pangolin PNG/USDT pool address (reserve0 is PNG, reserve1 is USDT). -/
def PANGOLIN_PNG_USDT_POOL_ADDRESS : String :=
  "0xe8acf438b10a2c09f80aef3ef2858f8e758c98f9"

/-- `convertPNGToWavax`: read fresh reserves from the PNG/WAVAX pool and
convert, passing reserve0 as `reserveIn` and reserve1 as `reserveOut`. -/
def convertPNGToWavax (env : ChainEnv) (pngQuantity : Nat) : Except Err Nat :=
  match env.getReserves PANGOLIN_PNG_WAVAX_POOL_ADDRESS with
  | .error e => .error e
  | .ok r => convertViaPool pngQuantity r.reserve0 r.reserve1

/-- `convertPNGToUSDT`: read fresh reserves from the PNG/USDT pool and
convert, passing reserve0 as `reserveIn` and reserve1 as `reserveOut`. -/
def convertPNGToUSDT (env : ChainEnv) (pngQuantity : Nat) : Except Err Nat :=
  match env.getReserves PANGOLIN_PNG_USDT_POOL_ADDRESS with
  | .error e => .error e
  | .ok r => convertViaPool pngQuantity r.reserve0 r.reserve1

/-- Model of `Promise.all(xs.map f)`: succeeds with the list of all results
when every element succeeds, otherwise rejects with an element's error. -/
def promiseAll {α β : Type} (f : α → Except Err β) : List α → Except Err (List β)
  | [] => .ok []
  | x :: xs =>
    match f x with
    | .error e => .error e
    | .ok y =>
      match promiseAll f xs with
      | .error e => .error e
      | .ok ys => .ok (y :: ys)

/-- The per-strategy fetch of `createHarvests` (`mapStrategyToHarvestable`):
reads the harvestable amount, then `performanceTreasuryFee` twice — once
for the `treasuryFee` field and once for the `treasuryMax` field. -/
def mapStrategyToHarvestable (env : ChainEnv) (s : String) : Except Err Harvest0 :=
  match env.getHarvestable s with
  | .error e => .error e
  | .ok hv =>
    match env.performanceTreasuryFee s with
    | .error e => .error e
    | .ok fee =>
      match env.performanceTreasuryFee s with
      | .error e => .error e
      | .ok mx => .ok ⟨s, env.strategyName s.toLower, hv, fee, mx⟩

/-- The flattening `contracts.map(c => c.strategies).reduce(concat, [])`. -/
def flattenStrategies (contracts : List Target) : List String :=
  (contracts.map Target.strategies).foldl (fun out s => out ++ s) []

/-- Pipeline stage 1, `createHarvests`: fetch the candidate data for every
strategy contract across all targets; any single fetch failure rejects the
whole stage. -/
def createHarvests (env : ChainEnv) (contracts : List Target) : Except Err (List Harvest0) :=
  promiseAll (mapStrategyToHarvestable env) (flattenStrategies contracts)

/-- The per-record step of `addHarvestTx` (shadows the stage name in the JS
source): spread the old record and add the unsent harvest call intent. -/
def addHarvestTxOne (harvest : Harvest0) : Except Err Harvest1 :=
  .ok ⟨harvest, ⟨harvest.strategy⟩⟩

/-- Pipeline stage 2, `addHarvestTx`. -/
def addHarvestTx (harvests : List Harvest0) : Except Err (List Harvest1) :=
  promiseAll addHarvestTxOne harvests

/-- The per-record step of `addHarvestGain`: spread the old record and add
`gainWAVAX` and `gainUSDT`, both converted from the same harvestable
quantity. -/
def addHarvestGainOne (env : ChainEnv) (harvest : Harvest1) : Except Err Harvest2 :=
  match convertPNGToWavax env harvest.harvestable with
  | .error e => .error e
  | .ok g =>
    match convertPNGToUSDT env harvest.harvestable with
    | .error e => .error e
    | .ok u => .ok ⟨harvest, g, u⟩

/-- Pipeline stage 3, `addHarvestGain`. -/
def addHarvestGain (env : ChainEnv) (harvests : List Harvest1) : Except Err (List Harvest2) :=
  promiseAll (addHarvestGainOne env) harvests

/-- The per-record step of `addHarvestGas`: spread the old record and add
the gas estimate (from the operating wallet) and the current gas price. -/
def addHarvestGasOne (env : ChainEnv) (harvest : Harvest2) : Except Err Harvest3 :=
  match env.estimateGas harvest.tx env.walletAddress with
  | .error e => .error e
  | .ok g =>
    match env.getGasPrice with
    | .error e => .error e
    | .ok p => .ok ⟨harvest, g, p⟩

/-- Pipeline stage 4, `addHarvestGas`. -/
def addHarvestGas (env : ChainEnv) (harvests : List Harvest2) : Except Err (List Harvest3) :=
  promiseAll (addHarvestGasOne env) harvests

/-- Pipeline stage 5, `filterHarvestByCostVsGain`: keep a record when
`gas * gasPrice < gainWAVAX * treasuryFee / treasuryMax` (BN arithmetic:
the division throws on a zero `treasuryMax`, aborting the filter). -/
def filterHarvestByCostVsGain : List Harvest3 → Except Err (List Harvest3)
  | [] => .ok []
  | harvest :: rest =>
    match bnDiv (harvest.gainWAVAX * harvest.treasuryFee) harvest.treasuryMax with
    | .error e => .error e
    | .ok treasuryGainAsAvax =>
      match filterHarvestByCostVsGain rest with
      | .error e => .error e
      | .ok kept =>
        if harvest.gas * harvest.gasPrice < treasuryGainAsAvax then
          .ok (harvest :: kept)
        else .ok kept

/-- The executor's per-record closure `executeHarvestTx(harvest, i)`: in
test mode it only logs (the promise fulfils with `undefined`); otherwise it
invokes the submission primitive with nonce `nonce + i` and settles with
that submission's own outcome.  The second component is the list of
submission events this record caused. -/
def executeHarvestTx (env : ChainEnv) (nonce i : Nat) (harvest : Harvest3) :
    Settled × List ChainEvent :=
  if env.testMode then (.fulfilled none, [])
  else
    match env.send harvest.tx ⟨env.walletAddress, harvest.gas, harvest.gasPrice, nonce + i⟩ with
    | .ok r =>
      (.fulfilled (some r), [.send harvest.tx.strategyAddr ⟨env.walletAddress, harvest.gas, harvest.gasPrice, nonce + i⟩])
    | .error e =>
      (.rejected e, [.send harvest.tx.strategyAddr ⟨env.walletAddress, harvest.gas, harvest.gasPrice, nonce + i⟩])

/-- Model of `Promise.allSettled(harvests.map(executeHarvestTx))`: every
record is settled independently, with its position in the sequence. -/
def allSettledMap (env : ChainEnv) (nonce : Nat) : Nat → List Harvest3 → List (Settled × List ChainEvent)
  | _, [] => []
  | i, harvest :: rest => executeHarvestTx env nonce i harvest :: allSettledMap env nonce (i + 1) rest

/-- What `doHarvesting` resolves with: the settled outcomes paired with the
(unchanged) input records, together with the chain-event trace. -/
structure HarvestingOutcome where
  results : List Settled
  harvests : List Harvest3
  trace : List ChainEvent
deriving DecidableEq, Repr

/-- The executor, `doHarvesting`: read the operating wallet's transaction
count once, submit every record (nonce = count + index), and resolve with
all settled outcomes paired with the input records. -/
def doHarvesting (env : ChainEnv) (harvests : List Harvest3) : Except Err HarvestingOutcome :=
  match env.getTransactionCount env.walletAddress with
  | .error e => .error e
  | .ok nonce =>
    let outs := allSettledMap env nonce 0 harvests
    .ok ⟨outs.map Prod.fst, harvests, .readTxCount nonce :: (outs.map Prod.snd).flatten⟩

/-- One reporter line of `logHarvestingResults`, with the data it prints. -/
inductive ReportLine where
  | success (strategy : String) (name : Option String) (txHash : Option String)
  | failure (strategy : String) (name : Option String) (reason : Option Err)
deriving DecidableEq, Repr

/-- Whether a report line is a success summary. -/
def ReportLine.isSuccess : ReportLine → Bool
  | .success _ _ _ => true
  | .failure _ _ _ => false

/-- The reporter's treatment of one (outcome, record) pair: the success
branch is taken when the settled value is truthy or test mode is on. -/
def reportLine (testMode : Bool) (r : Settled) (harvest : Harvest3) : ReportLine :=
  let value : Option TxReceipt := match r with | .fulfilled v => v | .rejected _ => none
  let reason : Option Err := match r with | .fulfilled _ => none | .rejected e => some e
  if value.isSome || testMode then
    .success ((value.map TxReceipt.toAddress).getD harvest.strategy) harvest.name
      (value.map TxReceipt.transactionHash)
  else
    .failure ((value.map TxReceipt.toAddress).getD harvest.strategy) harvest.name reason

/-- `logHarvestingResults`: one report line per (outcome, record) pair. -/
def logHarvestingResults (testMode : Bool) (o : HarvestingOutcome) : List ReportLine :=
  (o.results.zip o.harvests).map (fun p => reportLine testMode p.1 p.2)

/-- The stage-tag messages printed by the per-stage `.catch` handlers. -/
inductive StageTag where
  /-- "Error fetching information from strategy" -/
  | fetchingStrategyInfo
  /-- "Error adding harvest tx" -/
  | addingHarvestTx
  /-- "Error adding harvest gain" -/
  | addingHarvestGain
  /-- "Error adding harvest gas" -/
  | addingHarvestGas
deriving DecidableEq, Repr

/-- Outcome of one pipeline cycle: the stage-tag error logs emitted, the
chain events performed by the executor, and the cycle's overall result. -/
structure CycleResult where
  logs : List StageTag
  trace : List ChainEvent
  result : Except Err (List ReportLine)
deriving Repr

/-- One full pipeline cycle, the promise chain of `loop`:
`createHarvests → addHarvestTx → addHarvestGain → addHarvestGas →
filterHarvestByCostVsGain → doHarvesting → logHarvestingResults`; any
stage rejection short-circuits the chain (the first four stages log their
stage tag before re-throwing). -/
def runCycle (env : ChainEnv) (contracts : List Target) : CycleResult :=
  match createHarvests env contracts with
  | .error e => ⟨[.fetchingStrategyInfo], [], .error e⟩
  | .ok h0 =>
    match addHarvestTx h0 with
    | .error e => ⟨[.addingHarvestTx], [], .error e⟩
    | .ok h1 =>
      match addHarvestGain env h1 with
      | .error e => ⟨[.addingHarvestGain], [], .error e⟩
      | .ok h2 =>
        match addHarvestGas env h2 with
        | .error e => ⟨[.addingHarvestGas], [], .error e⟩
        | .ok h3 =>
          match filterHarvestByCostVsGain h3 with
          | .error e => ⟨[], [], .error e⟩
          | .ok kept =>
            match doHarvesting env kept with
            | .error e => ⟨[], [], .error e⟩
            | .ok o => ⟨[], o.trace, .ok (logHarvestingResults env.testMode o)⟩

/-- What `handleError` does with a cycle error: log it, then schedule
`process.exit(code)` after a flush delay, as `(delayMs, exitCode)`. -/
structure ErrorHandling where
  loggedError : Err
  exit : Option (Nat × Nat)
deriving DecidableEq, Repr

/-- `handleError`: `console.error(err)` then
`setTimeout(() => process.exit(1), 1000)`. -/
def handleError (err : Err) : ErrorHandling :=
  ⟨err, some (1000, 1)⟩

/-- The `.catch(handleError)` at the end of `loop`'s promise chain: when
the cycle fails, `handleError` runs on the error; otherwise nothing. -/
def loop (env : ChainEnv) (contracts : List Target) : Option ErrorHandling :=
  match (runCycle env contracts).result with
  | .error e => some (handleError e)
  | .ok _ => none

/-- `initContracts`: for each tracked want address, resolve its snowglobe
(vault) and strategy addresses through the controller (a failing registry
call rejects the whole discovery); skip the entry when either resolved
address fails `isAddress` validation, else cache the contract pair. -/
def initContracts (env : ChainEnv) : List String → Except Err (List Target)
  | [] => .ok []
  | want :: rest =>
    match env.globes want with
    | .error e => .error e
    | .ok g =>
      match env.strategies want with
      | .error e => .error e
      | .ok s =>
        if [g].any (fun a => !env.isAddress a) || [s].any (fun a => !env.isAddress a) then
          initContracts env rest
        else
          match initContracts env rest with
          | .error e => .error e
          | .ok cache => .ok (⟨[g], [s]⟩ :: cache)

/-! ### Helper lemmas about the promise combinators -/

theorem promiseAll_length {α β : Type} (f : α → Except Err β) :
    ∀ xs ys, promiseAll f xs = .ok ys → ys.length = xs.length := by
  intro xs
  induction xs with
  | nil =>
    intro ys h
    simp only [promiseAll, Except.ok.injEq] at h
    simp [← h]
  | cons x xs ih =>
    intro ys h
    simp only [promiseAll] at h
    split at h
    · exact absurd h (by simp)
    · split at h
      · exact absurd h (by simp)
      · rename_i ys' hys'
        simp only [Except.ok.injEq] at h
        subst h
        simp [ih ys' hys']

theorem promiseAll_get? {α β : Type} (f : α → Except Err β) :
    ∀ xs ys, promiseAll f xs = .ok ys →
      ∀ i x, xs.get? i = some x → ∃ y, ys.get? i = some y ∧ f x = .ok y := by
  intro xs
  induction xs with
  | nil =>
    intro ys _ i x hx
    simp [List.get?] at hx
  | cons a xs ih =>
    intro ys h i x hx
    simp only [promiseAll] at h
    split at h
    · exact absurd h (by simp)
    · rename_i y hy
      split at h
      · exact absurd h (by simp)
      · rename_i ys' hys'
        simp only [Except.ok.injEq] at h
        subst h
        cases i with
        | zero =>
          simp only [List.get?, Option.some.injEq] at hx ⊢
          subst hx
          exact ⟨y, rfl, hy⟩
        | succ i =>
          simp only [List.get?] at hx ⊢
          exact ih ys' hys' i x hx

theorem promiseAll_mem {α β : Type} (f : α → Except Err β) :
    ∀ xs ys, promiseAll f xs = .ok ys →
      ∀ y ∈ ys, ∃ x ∈ xs, f x = .ok y := by
  intro xs
  induction xs with
  | nil =>
    intro ys h y hy
    simp only [promiseAll, Except.ok.injEq] at h
    subst h
    simp at hy
  | cons a xs ih =>
    intro ys h y hy
    simp only [promiseAll] at h
    split at h
    · exact absurd h (by simp)
    · rename_i y' hy'
      split at h
      · exact absurd h (by simp)
      · rename_i ys' hys'
        simp only [Except.ok.injEq] at h
        subst h
        rcases List.mem_cons.1 hy with hEq | hTail
        · exact ⟨a, List.mem_cons_self a xs, hEq ▸ hy'⟩
        · obtain ⟨x, hxMem, hfx⟩ := ih ys' hys' y hTail
          exact ⟨x, List.mem_cons_of_mem a hxMem, hfx⟩

theorem promiseAll_error {α β : Type} (f : α → Except Err β) :
    ∀ xs, (∃ x ∈ xs, ∃ e, f x = .error e) → ∃ e, promiseAll f xs = .error e := by
  intro xs
  induction xs with
  | nil =>
    rintro ⟨x, hx, -⟩
    simp at hx
  | cons a xs ih =>
    rintro ⟨x, hxMem, e, hfx⟩
    rcases List.mem_cons.1 hxMem with hEq | hTail
    · exact ⟨e, by simp [promiseAll, hEq ▸ hfx]⟩
    · obtain ⟨e', he'⟩ := ih ⟨x, hTail, e, hfx⟩
      cases hfa : f a with
      | error e'' => exact ⟨e'', by simp [promiseAll, hfa]⟩
      | ok y => exact ⟨e', by simp [promiseAll, hfa, he']⟩

/-! ### Sample inputs used by the witnesses -/

deriving instance DecidableEq for Except

/-- Sample chain environment with every read succeeding: the PNG/WAVAX pool
holds reserves (5, 10), the PNG/USDT pool (4, 2), every strategy has 1000
harvestable and a performance treasury fee of 20, gas estimates are 50 at
gas price 3, the wallet transaction count is 7, and sends succeed. -/
def sampleEnv : ChainEnv where
  testMode := false
  walletAddress := "0xwallet"
  isAddress := fun a => a.length != 0
  globes := fun w => .ok (w.drop 2)
  strategies := fun w => .ok (String.append "s" w)
  strategyName := fun _ => none
  getHarvestable := fun _ => .ok 1000
  performanceTreasuryFee := fun _ => .ok 20
  getReserves := fun a =>
    if a = PANGOLIN_PNG_WAVAX_POOL_ADDRESS then .ok ⟨5, 10⟩ else .ok ⟨4, 2⟩
  estimateGas := fun _ _ => .ok 50
  getGasPrice := .ok 3
  getTransactionCount := fun _ => .ok 7
  send := fun tx _ => .ok ⟨tx.strategyAddr, "0xhash"⟩

/-- Sample record matching the spec's worked example: treasury gain
`1000 * 20 / 100 = 200`, cost `50 * 3 = 150`, so it is kept. -/
def sampleKept : Harvest3 :=
  ⟨⟨⟨⟨"0xstratA", none, 1000, 20, 100⟩, ⟨"0xstratA"⟩⟩, 1000, 500⟩, 50, 3⟩

/-- Sample record matching the spec's worked example at break-even:
treasury gain `200`, cost `50 * 4 = 200`, so it is dropped. -/
def sampleDropped : Harvest3 :=
  ⟨⟨⟨⟨"0xstratB", none, 1000, 20, 100⟩, ⟨"0xstratB"⟩⟩, 1000, 500⟩, 50, 4⟩

/-- Sample candidate record as fetched by `createHarvests` under
`sampleEnv` (both fee fields read from the same accessor). -/
def sampleH0 : Harvest0 := ⟨"s0xaa", none, 1000, 20, 20⟩

/-- The sample record after `addHarvestTx`. -/
def sampleH1 : Harvest1 := ⟨sampleH0, ⟨"s0xaa"⟩⟩

/-- The sample record after `addHarvestGain` under `sampleEnv`
(`1000 * 10 / 5 = 2000` WAVAX, `1000 * 2 / 4 = 500` USDT). -/
def sampleH2 : Harvest2 := ⟨sampleH1, 2000, 500⟩

/-- The sample record after `addHarvestGas` under `sampleEnv`. -/
def sampleH3 : Harvest3 := ⟨sampleH2, 50, 3⟩

/-- Length and pointwise preservation of a `promiseAll` stage whose
per-record function keeps the previous record intact under `proj`. -/
theorem promiseAll_preserves {α β : Type} (f : α → Except Err β) (proj : β → α)
    (hproj : ∀ x y, f x = .ok y → proj y = x) :
    ∀ xs ys, promiseAll f xs = .ok ys →
      ys.length = xs.length ∧ ∀ i : Nat, (ys.get? i).map proj = xs.get? i := by
  intro xs ys h
  refine ⟨promiseAll_length f xs ys h, fun i => ?_⟩
  cases hx : xs.get? i with
  | some x =>
    obtain ⟨y, hy, hfy⟩ := promiseAll_get? f xs ys h i x hx
    rw [hy]
    simp [hproj x y hfy]
  | none =>
    have hlen := promiseAll_length f xs ys h
    have hle : xs.length ≤ i := List.get?_eq_none.1 hx
    rw [List.get?_eq_none.2 (hlen ▸ hle)]
    rfl

/-! ### Claim theorems -/

/-- C1: the profitability filter computes `costInNative = gas * gasPrice`
and `treasuryGainInNative = gainWAVAX * treasuryFee / treasuryMax` with
truncating natural division, and keeps a record exactly when the cost is
strictly below the treasury gain; a break-even record is dropped. -/
theorem filter_keeps_iff_strict_cost_lt_gain :
    ∀ hs : List Harvest3, (∀ h ∈ hs, h.treasuryMax ≠ 0) →
    filterHarvestByCostVsGain hs =
      .ok (hs.filter fun h =>
        decide (h.gas * h.gasPrice < h.gainWAVAX * h.treasuryFee / h.treasuryMax)) ∧
    ∀ h ∈ hs, h.gas * h.gasPrice = h.gainWAVAX * h.treasuryFee / h.treasuryMax →
      h ∉ hs.filter fun h2 =>
        decide (h2.gas * h2.gasPrice < h2.gainWAVAX * h2.treasuryFee / h2.treasuryMax) := by
  intro hs hmax
  constructor
  · induction hs with
    | nil => simp [filterHarvestByCostVsGain]
    | cons h t ih =>
      have hm : h.treasuryMax ≠ 0 := hmax h (List.mem_cons_self h t)
      have ht : ∀ h2 ∈ t, h2.treasuryMax ≠ 0 := fun h2 hh2 => hmax h2 (List.mem_cons_of_mem h hh2)
      simp only [filterHarvestByCostVsGain, bnDiv, if_neg hm, ih ht, List.filter_cons]
      by_cases hlt : h.gas * h.gasPrice < h.gainWAVAX * h.treasuryFee / h.treasuryMax
      · simp [hlt]
      · simp [hlt]
  · intro h _ hEq hContra
    have := (List.mem_filter.1 hContra).2
    simp only [decide_eq_true_eq] at this
    rw [hEq] at this
    exact lt_irrefl _ this

/-- Witness for C1 on the spec's worked example: the kept/dropped pair. -/
theorem filter_keeps_iff_strict_cost_lt_gain_witness :
    (∀ h ∈ [sampleKept, sampleDropped], h.treasuryMax ≠ 0) ∧
    filterHarvestByCostVsGain [sampleKept, sampleDropped] = .ok [sampleKept] := by
  refine ⟨by decide, ?_⟩
  have h1 := (filter_keeps_iff_strict_cost_lt_gain [sampleKept, sampleDropped] (by decide)).1
  rw [h1]
  rfl

/-- C4: `convertViaPool` is the truncating `q * rOut / rIn`; zero quantity
converts to zero; a zero input reserve is a division-class failure; the
reserve arguments are not commutative; and both call sites pass the pool's
reserve0 (the PNG side) as `reserveIn` and reserve1 (the quote side) as
`reserveOut`. -/
theorem convertViaPool_spec :
    (∀ q rIn rOut : Nat, rIn ≠ 0 → convertViaPool q rIn rOut = .ok (q * rOut / rIn)) ∧
    (∀ rIn rOut : Nat, rIn ≠ 0 → convertViaPool 0 rIn rOut = .ok 0) ∧
    (∀ q rOut : Nat, convertViaPool q 0 rOut = .error .divisionByZero) ∧
    convertViaPool 1 1 2 ≠ convertViaPool 1 2 1 ∧
    (∀ (env : ChainEnv) (q : Nat) (r : Reserves),
      env.getReserves PANGOLIN_PNG_WAVAX_POOL_ADDRESS = .ok r →
      convertPNGToWavax env q = convertViaPool q r.reserve0 r.reserve1) ∧
    (∀ (env : ChainEnv) (q : Nat) (r : Reserves),
      env.getReserves PANGOLIN_PNG_USDT_POOL_ADDRESS = .ok r →
      convertPNGToUSDT env q = convertViaPool q r.reserve0 r.reserve1) := by
  refine ⟨?_, ?_, ?_, by decide, ?_, ?_⟩
  · intro q rIn rOut h
    simp [convertViaPool, h]
  · intro rIn rOut h
    simp [convertViaPool, h]
  · intro q rOut
    simp [convertViaPool]
  · intro env q r h
    simp [convertPNGToWavax, h]
  · intro env q r h
    simp [convertPNGToUSDT, h]

/-- Witness for C4 at concrete inputs, including both call sites against
the sample environment's pools. -/
theorem convertViaPool_spec_witness :
    (2 ≠ 0 ∧ convertViaPool 7 2 3 = .ok 10) ∧
    (2 ≠ 0 ∧ convertViaPool 0 2 3 = .ok 0) ∧
    (sampleEnv.getReserves PANGOLIN_PNG_WAVAX_POOL_ADDRESS = .ok ⟨5, 10⟩ ∧
      convertPNGToWavax sampleEnv 1000 = convertViaPool 1000 5 10) ∧
    (sampleEnv.getReserves PANGOLIN_PNG_USDT_POOL_ADDRESS = .ok ⟨4, 2⟩ ∧
      convertPNGToUSDT sampleEnv 1000 = convertViaPool 1000 4 2) :=
  ⟨⟨by decide, by rw [convertViaPool_spec.1 7 2 3 (by decide)]⟩,
   ⟨by decide, convertViaPool_spec.2.1 2 3 (by decide)⟩,
   ⟨by decide, convertViaPool_spec.2.2.2.2.1 sampleEnv 1000 ⟨5, 10⟩ (by decide)⟩,
   ⟨by decide, convertViaPool_spec.2.2.2.2.2 sampleEnv 1000 ⟨4, 2⟩ (by decide)⟩⟩

/-- C8: discovery accepts a want entry exactly when both its resolved vault
address and its resolved strategy address pass `isAddress` validation,
silently skipping failing entries, and returns the accepted targets in
input order (stated for runs where every registry call resolves). -/
theorem initContracts_filters_and_preserves_order :
    ∀ (env : ChainEnv) (wants : List String) (gf sf : String → String),
      (∀ w ∈ wants, env.globes w = .ok (gf w)) →
      (∀ w ∈ wants, env.strategies w = .ok (sf w)) →
      initContracts env wants =
        .ok ((wants.filter fun w => env.isAddress (gf w) && env.isAddress (sf w)).map
          fun w => ⟨[gf w], [sf w]⟩) := by
  intro env wants gf sf
  induction wants with
  | nil =>
    intro _ _
    simp [initContracts]
  | cons w ws ih =>
    intro hg hs
    have hgw := hg w (List.mem_cons_self w ws)
    have hsw := hs w (List.mem_cons_self w ws)
    have hrec := ih (fun w' h => hg w' (List.mem_cons_of_mem w h))
      (fun w' h => hs w' (List.mem_cons_of_mem w h))
    simp only [initContracts, hgw, hsw, List.any_cons, List.any_nil, Bool.or_false,
      List.filter_cons]
    by_cases hcond : env.isAddress (gf w) && env.isAddress (sf w)
    · rw [if_neg (by simp_all), hrec, if_pos hcond]
      rfl
    · rw [if_pos (by
        rcases Bool.and_eq_false_iff.1 (Bool.eq_false_iff.2 hcond) with h | h <;>
          simp [h]), hrec, if_neg hcond]

/-- Witness for C8: three tracked wants, the middle one resolving to an
empty (invalid) vault address, yielding the two remaining targets in
order. -/
theorem initContracts_filters_and_preserves_order_witness :
    (∀ w ∈ ["0xaa", "0x", "0xbb"], sampleEnv.globes w = .ok (String.drop w 2)) ∧
    (∀ w ∈ ["0xaa", "0x", "0xbb"], sampleEnv.strategies w = .ok (String.append "s" w)) ∧
    initContracts sampleEnv ["0xaa", "0x", "0xbb"] =
      .ok [⟨["aa"], ["s0xaa"]⟩, ⟨["bb"], ["s0xbb"]⟩] := by
  refine ⟨by decide, by decide, ?_⟩
  rw [initContracts_filters_and_preserves_order sampleEnv ["0xaa", "0x", "0xbb"]
    (fun w => String.drop w 2) (fun w => String.append "s" w) (by decide) (by decide)]
  rfl

/-- C9: each enrichment stage returns a sequence of the same length and
order as its input, and the i-th output record restricts (projects) to
exactly the i-th input record — the old fields are carried over unchanged
and only the stage's new fields are added. -/
theorem stages_preserve_records :
    (∀ (h0 : List Harvest0) (out : List Harvest1), addHarvestTx h0 = .ok out →
      out.length = h0.length ∧ ∀ i : Nat, (out.get? i).map Harvest1.toHarvest0 = h0.get? i) ∧
    (∀ (env : ChainEnv) (h1 : List Harvest1) (out : List Harvest2),
      addHarvestGain env h1 = .ok out →
      out.length = h1.length ∧ ∀ i : Nat, (out.get? i).map Harvest2.toHarvest1 = h1.get? i) ∧
    (∀ (env : ChainEnv) (h2 : List Harvest2) (out : List Harvest3),
      addHarvestGas env h2 = .ok out →
      out.length = h2.length ∧ ∀ i : Nat, (out.get? i).map Harvest3.toHarvest2 = h2.get? i) := by
  refine ⟨?_, ?_, ?_⟩
  · intro h0 out h
    exact promiseAll_preserves addHarvestTxOne Harvest1.toHarvest0
      (by intro x y hy; cases hy; rfl) h0 out h
  · intro env h1 out h
    refine promiseAll_preserves (addHarvestGainOne env) Harvest2.toHarvest1 ?_ h1 out h
    intro x y hy
    unfold addHarvestGainOne at hy
    split at hy
    · exact absurd hy (by simp)
    · split at hy
      · exact absurd hy (by simp)
      · cases hy; rfl
  · intro env h2 out h
    refine promiseAll_preserves (addHarvestGasOne env) Harvest3.toHarvest2 ?_ h2 out h
    intro x y hy
    unfold addHarvestGasOne at hy
    split at hy
    · exact absurd hy (by simp)
    · split at hy
      · exact absurd hy (by simp)
      · cases hy; rfl

/-- Witness for C9 on singleton stage runs under the sample environment. -/
theorem stages_preserve_records_witness :
    ([sampleH1].length = [sampleH0].length ∧
      ([sampleH1].get? 0).map Harvest1.toHarvest0 = [sampleH0].get? 0) ∧
    ([sampleH2].length = [sampleH1].length ∧
      ([sampleH2].get? 0).map Harvest2.toHarvest1 = [sampleH1].get? 0) ∧
    ([sampleH3].length = [sampleH2].length ∧
      ([sampleH3].get? 0).map Harvest3.toHarvest2 = [sampleH2].get? 0) :=
  ⟨⟨(stages_preserve_records.1 [sampleH0] [sampleH1] (by decide)).1,
    (stages_preserve_records.1 [sampleH0] [sampleH1] (by decide)).2 0⟩,
   ⟨(stages_preserve_records.2.1 sampleEnv [sampleH1] [sampleH2] (by decide)).1,
    (stages_preserve_records.2.1 sampleEnv [sampleH1] [sampleH2] (by decide)).2 0⟩,
   ⟨(stages_preserve_records.2.2 sampleEnv [sampleH2] [sampleH3] (by decide)).1,
    (stages_preserve_records.2.2 sampleEnv [sampleH2] [sampleH3] (by decide)).2 0⟩⟩

/-- C10: every candidate built by `createHarvests` has
`treasuryFee = treasuryMax` (both are read through the same
`performanceTreasuryFee` accessor), and for any record with equal, nonzero
fee fields the filter's treasury gain collapses to `gainWAVAX` exactly, so
the profitability test is equivalent to `gas * gasPrice < gainWAVAX`. -/
theorem treasuryFee_eq_treasuryMax :
    (∀ (env : ChainEnv) (contracts : List Target) (hs : List Harvest0),
      createHarvests env contracts = .ok hs → ∀ h ∈ hs, h.treasuryFee = h.treasuryMax) ∧
    (∀ h : Harvest3, h.treasuryFee = h.treasuryMax → h.treasuryMax ≠ 0 →
      h.gainWAVAX * h.treasuryFee / h.treasuryMax = h.gainWAVAX ∧
      (h.gas * h.gasPrice < h.gainWAVAX * h.treasuryFee / h.treasuryMax ↔
        h.gas * h.gasPrice < h.gainWAVAX)) := by
  constructor
  · intro env contracts hs hok h hMem
    obtain ⟨s, _, hfs⟩ := promiseAll_mem (mapStrategyToHarvestable env)
      (flattenStrategies contracts) hs hok h hMem
    unfold mapStrategyToHarvestable at hfs
    split at hfs
    · exact absurd hfs (by simp)
    · rename_i hv _
      split at hfs
      · exact absurd hfs (by simp)
      · rename_i fee _
        have hInj := Except.ok.inj hfs
        rw [← hInj]
  · intro h hEq hNe
    have hCancel : h.gainWAVAX * h.treasuryFee / h.treasuryMax = h.gainWAVAX := by
      rw [hEq, Nat.mul_div_cancel _ (Nat.pos_of_ne_zero hNe)]
    exact ⟨hCancel, by rw [hCancel]⟩

/-- Witness for C10: a single-target cycle under the sample environment
builds the sample record with equal fee fields, and the equivalence holds
at the sample filtered record. -/
theorem treasuryFee_eq_treasuryMax_witness :
    (∀ h ∈ [sampleH0], h.treasuryFee = h.treasuryMax) ∧
    (sampleH3.gainWAVAX * sampleH3.treasuryFee / sampleH3.treasuryMax = sampleH3.gainWAVAX ∧
      (sampleH3.gas * sampleH3.gasPrice <
          sampleH3.gainWAVAX * sampleH3.treasuryFee / sampleH3.treasuryMax ↔
        sampleH3.gas * sampleH3.gasPrice < sampleH3.gainWAVAX)) :=
  ⟨treasuryFee_eq_treasuryMax.1 sampleEnv [⟨["aa"], ["s0xaa"]⟩] [sampleH0] (by decide),
   treasuryFee_eq_treasuryMax.2 sampleH3 (by decide) (by decide)⟩

/-! ### Helper lemmas about the executor -/

theorem allSettledMap_length (env : ChainEnv) (nonce : Nat) :
    ∀ (hs : List Harvest3) (i : Nat), (allSettledMap env nonce i hs).length = hs.length := by
  intro hs
  induction hs with
  | nil => intro i; rfl
  | cons h t ih => intro i; simp [allSettledMap, ih]

theorem allSettledMap_get? (env : ChainEnv) (nonce : Nat) :
    ∀ (hs : List Harvest3) (i j : Nat),
      (allSettledMap env nonce i hs).get? j =
        (hs.get? j).map (fun h => executeHarvestTx env nonce (i + j) h) := by
  intro hs
  induction hs with
  | nil => intro i j; simp [allSettledMap]
  | cons h t ih =>
    intro i j
    cases j with
    | zero => simp [allSettledMap, List.get?]
    | succ j =>
      simp only [allSettledMap, List.get?, ih (i + 1) j]
      have : i + 1 + j = i + (j + 1) := by omega
      rw [this]

theorem executeHarvestTx_congr (env env2 : ChainEnv) (h : Harvest3)
    (hT : env2.testMode = env.testMode) (hW : env2.walletAddress = env.walletAddress)
    (hS : ∀ p, env2.send h.tx p = env.send h.tx p) :
    ∀ nonce i, executeHarvestTx env2 nonce i h = executeHarvestTx env nonce i h := by
  intro nonce i
  unfold executeHarvestTx
  rw [hT, hW, hS]

theorem allSettledMap_events (env : ChainEnv) (nonce : Nat)
    (hTest : env.testMode = false) :
    ∀ (hs : List Harvest3) (i : Nat),
      ((allSettledMap env nonce i hs).map Prod.snd).flatten =
        (hs.enumFrom i).map (fun p =>
          ChainEvent.send p.2.tx.strategyAddr
            ⟨env.walletAddress, p.2.gas, p.2.gasPrice, nonce + p.1⟩) := by
  intro hs
  induction hs with
  | nil => intro i; simp [allSettledMap, List.enumFrom]
  | cons h t ih =>
    intro i
    simp only [allSettledMap, List.map_cons, List.flatten_cons, List.enumFrom, ih (i + 1)]
    unfold executeHarvestTx
    rw [hTest]
    simp only [Bool.false_eq_true, if_false]
    cases env.send h.tx ⟨env.walletAddress, h.gas, h.gasPrice, nonce + i⟩ <;> simp

theorem allSettledMap_testMode (env : ChainEnv) (nonce : Nat)
    (hTest : env.testMode = true) :
    ∀ (hs : List Harvest3) (i : Nat),
      allSettledMap env nonce i hs = hs.map (fun _ => (Settled.fulfilled none, [])) := by
  intro hs
  induction hs with
  | nil => intro i; rfl
  | cons h t ih =>
    intro i
    simp only [allSettledMap, List.map_cons, ih (i + 1)]
    unfold executeHarvestTx
    rw [hTest]
    simp

theorem get?_zip_of {α β : Type} :
    ∀ (l : List α) (l' : List β) (i : Nat) (x : α) (y : β),
      l.get? i = some x → l'.get? i = some y → (l.zip l').get? i = some (x, y) := by
  intro l
  induction l with
  | nil => intro l' i x y hx; simp [List.get?] at hx
  | cons a l ih =>
    intro l' i x y hx hy
    cases l' with
    | nil => simp [List.get?] at hy
    | cons b l' =>
      cases i with
      | zero =>
        simp only [List.get?, Option.some.injEq] at hx hy
        simp [List.zip_cons_cons, List.get?, hx, hy]
      | succ i =>
        simp only [List.get?] at hx hy
        rw [List.zip_cons_cons]
        exact ih l' i x y hx hy

theorem flatten_map_nil {α β : Type} :
    ∀ l : List α, (l.map (fun _ => ([] : List β))).flatten = [] := by
  intro l
  induction l with
  | nil => rfl
  | cons a l ih => simp [ih]

/-- A second sample record for batches of two. -/
def sampleH3b : Harvest3 := ⟨⟨⟨⟨"s0xbb", none, 1000, 20, 20⟩, ⟨"s0xbb"⟩⟩, 2000, 500⟩, 50, 3⟩

/-- The outcome of `doHarvesting` on the two sample records under
`sampleEnv`: transaction count 7, both sends succeed at nonces 7 and 8. -/
def sampleOutcome : HarvestingOutcome :=
  ⟨[.fulfilled (some ⟨"s0xaa", "0xhash"⟩), .fulfilled (some ⟨"s0xbb", "0xhash"⟩)],
   [sampleH3, sampleH3b],
   [.readTxCount 7,
    .send "s0xaa" ⟨"0xwallet", 50, 3, 7⟩,
    .send "s0xbb" ⟨"0xwallet", 50, 3, 8⟩]⟩

/-- C3: the executor reads the wallet's transaction count exactly once as
the base nonce, submits the i-th filtered record with nonce `base + i`
whatever each submission's own outcome is, and returns the outcomes paired
with the unchanged input sequence, same length and order. -/
theorem doHarvesting_nonce_assignment :
    ∀ (env : ChainEnv) (hs : List Harvest3) (base : Nat) (o : HarvestingOutcome),
      env.getTransactionCount env.walletAddress = .ok base →
      env.testMode = false →
      doHarvesting env hs = .ok o →
      o.harvests = hs ∧ o.results.length = hs.length ∧
      o.trace = .readTxCount base :: (hs.enum.map fun p =>
        ChainEvent.send p.2.tx.strategyAddr
          ⟨env.walletAddress, p.2.gas, p.2.gasPrice, base + p.1⟩) ∧
      (o.trace.filter ChainEvent.isReadTxCount).length = 1 := by
  intro env hs base o hBase hTest hRun
  unfold doHarvesting at hRun
  rw [hBase] at hRun
  have ho := Except.ok.inj hRun
  subst ho
  refine ⟨rfl, ?_, ?_, ?_⟩
  · simp [allSettledMap_length]
  · show ChainEvent.readTxCount base :: ((allSettledMap env base 0 hs).map Prod.snd).flatten = _
    rw [allSettledMap_events env base hTest hs 0, List.enum]
  · show (List.filter _ (ChainEvent.readTxCount base ::
      ((allSettledMap env base 0 hs).map Prod.snd).flatten)).length = 1
    rw [allSettledMap_events env base hTest hs 0, List.filter_cons]
    have hRest : ((hs.enumFrom 0).map (fun p =>
        ChainEvent.send p.2.tx.strategyAddr
          ⟨env.walletAddress, p.2.gas, p.2.gasPrice, base + p.1⟩)).filter
        ChainEvent.isReadTxCount = [] := by
      induction hs.enumFrom 0 with
      | nil => rfl
      | cons p t ih => simp [ChainEvent.isReadTxCount, ih]
    rw [hRest]
    simp [ChainEvent.isReadTxCount]

/-- Witness for C3: a two-record batch under the sample environment, with
nonces 7 and 8 assigned in order. -/
theorem doHarvesting_nonce_assignment_witness :
    (sampleEnv.getTransactionCount sampleEnv.walletAddress = .ok 7 ∧
      sampleEnv.testMode = false ∧
      doHarvesting sampleEnv [sampleH3, sampleH3b] = .ok sampleOutcome) ∧
    (sampleOutcome.harvests = [sampleH3, sampleH3b] ∧
      sampleOutcome.results.length = [sampleH3, sampleH3b].length ∧
      sampleOutcome.trace = .readTxCount 7 :: ([sampleH3, sampleH3b].enum.map fun p =>
        ChainEvent.send p.2.tx.strategyAddr
          ⟨sampleEnv.walletAddress, p.2.gas, p.2.gasPrice, 7 + p.1⟩) ∧
      (sampleOutcome.trace.filter ChainEvent.isReadTxCount).length = 1) :=
  ⟨⟨by decide, by decide, by decide⟩,
   doHarvesting_nonce_assignment sampleEnv [sampleH3, sampleH3b] 7 sampleOutcome
     (by decide) (by decide) (by decide)⟩

/-- Environment identical to `sampleEnv` except the submission primitive
rejects for the strategy of `sampleH3b`: used to show a failing submission
leaves the other record's outcome untouched. -/
def sampleEnvSendBFails : ChainEnv :=
  { sampleEnv with
    send := fun tx _ =>
      if tx.strategyAddr = "s0xbb" then .error .network
      else .ok ⟨tx.strategyAddr, "0xhash"⟩ }

/-- C5: each of the batch's submissions is settled independently: the i-th
outcome (and its report line) depends only on the i-th record's own
submission, so changing how the submission primitive treats the other
records — including making them fail — never changes outcome i, and the
outcome list always has one entry per input record. -/
theorem submissions_settled_independently :
    ∀ (env env2 : ChainEnv) (hs : List Harvest3) (i : Nat) (h : Harvest3)
      (o o2 : HarvestingOutcome),
      env2.testMode = env.testMode →
      env2.walletAddress = env.walletAddress →
      env2.getTransactionCount = env.getTransactionCount →
      hs.get? i = some h →
      (∀ p, env2.send h.tx p = env.send h.tx p) →
      doHarvesting env hs = .ok o →
      doHarvesting env2 hs = .ok o2 →
      o.results.length = hs.length ∧ o2.results.length = hs.length ∧
      o2.results.get? i = o.results.get? i ∧
      (logHarvestingResults env2.testMode o2).get? i =
        (logHarvestingResults env.testMode o).get? i := by
  intro env env2 hs i h o o2 hT hW hC hGet hS hRun hRun2
  unfold doHarvesting at hRun hRun2
  rw [hC, hW] at hRun2
  cases hBase : env.getTransactionCount env.walletAddress with
  | error e =>
    rw [hBase] at hRun
    exact absurd hRun (by simp)
  | ok base =>
    rw [hBase] at hRun hRun2
    have ho := Except.ok.inj hRun
    have ho2 := Except.ok.inj hRun2
    subst ho
    subst ho2
    have hLen : ((allSettledMap env base 0 hs).map Prod.fst).length = hs.length := by
      simp [allSettledMap_length]
    have hLen2 : ((allSettledMap env2 base 0 hs).map Prod.fst).length = hs.length := by
      simp [allSettledMap_length]
    have hExec := executeHarvestTx_congr env env2 h hT hW hS base i
    have hRes : ((allSettledMap env base 0 hs).map Prod.fst).get? i =
        some (executeHarvestTx env base i h).1 := by
      rw [List.get?_map, allSettledMap_get? env base hs 0 i, hGet]
      simp
    have hRes2 : ((allSettledMap env2 base 0 hs).map Prod.fst).get? i =
        some (executeHarvestTx env base i h).1 := by
      rw [List.get?_map, allSettledMap_get? env2 base hs 0 i, hGet]
      simp [hExec]
    refine ⟨hLen, hLen2, ?_, ?_⟩
    · dsimp only
      rw [hRes2, hRes]
    · dsimp only [logHarvestingResults]
      rw [List.get?_map, List.get?_map,
        get?_zip_of _ hs i _ h hRes2 hGet, get?_zip_of _ hs i _ h hRes hGet]
      simp [hT]

/-- Witness for C5: under `sampleEnv` both sends succeed; under
`sampleEnvSendBFails` the second record's submission rejects, yet the first
record's outcome and report line are unchanged. -/
theorem submissions_settled_independently_witness :
    (sampleEnvSendBFails.testMode = sampleEnv.testMode ∧
      [sampleH3, sampleH3b].get? 0 = some sampleH3 ∧
      doHarvesting sampleEnv [sampleH3, sampleH3b] = .ok sampleOutcome ∧
      doHarvesting sampleEnvSendBFails [sampleH3, sampleH3b] =
        .ok ⟨[.fulfilled (some ⟨"s0xaa", "0xhash"⟩), .rejected .network],
          [sampleH3, sampleH3b], sampleOutcome.trace⟩) ∧
    (sampleOutcome.results.length = [sampleH3, sampleH3b].length ∧
      (⟨[.fulfilled (some ⟨"s0xaa", "0xhash"⟩), .rejected .network],
          [sampleH3, sampleH3b], sampleOutcome.trace⟩ : HarvestingOutcome).results.length =
        [sampleH3, sampleH3b].length ∧
      (⟨[.fulfilled (some ⟨"s0xaa", "0xhash"⟩), .rejected .network],
          [sampleH3, sampleH3b], sampleOutcome.trace⟩ : HarvestingOutcome).results.get? 0 =
        sampleOutcome.results.get? 0 ∧
      (logHarvestingResults sampleEnvSendBFails.testMode
          ⟨[.fulfilled (some ⟨"s0xaa", "0xhash"⟩), .rejected .network],
            [sampleH3, sampleH3b], sampleOutcome.trace⟩).get? 0 =
        (logHarvestingResults sampleEnv.testMode sampleOutcome).get? 0) :=
  ⟨⟨by decide, by decide, by decide, by decide⟩,
   submissions_settled_independently sampleEnv sampleEnvSendBFails
     [sampleH3, sampleH3b] 0 sampleH3 sampleOutcome
     ⟨[.fulfilled (some ⟨"s0xaa", "0xhash"⟩), .rejected .network],
       [sampleH3, sampleH3b], sampleOutcome.trace⟩
     (by decide) (by decide) rfl (by decide) (fun _ => rfl) (by decide) (by decide)⟩

/-- Test-mode variant of the sample environment. -/
def sampleEnvTest : ChainEnv := { sampleEnv with testMode := true }

/-- The outcome of `doHarvesting` on one sample record under the test-mode
environment: the count is still read, nothing is sent, and the one promise
fulfils with `undefined`. -/
def sampleOutcomeTest : HarvestingOutcome :=
  ⟨[.fulfilled none], [sampleH3], [.readTxCount 7]⟩

/-- C7: in dry-run (test) mode the submission primitive is never invoked —
the executor's trace contains no send event — and the reporter emits one
synthetic success line per record, never a failure line. -/
theorem testMode_no_submissions :
    ∀ (env : ChainEnv) (hs : List Harvest3) (o : HarvestingOutcome),
      env.testMode = true →
      doHarvesting env hs = .ok o →
      (∀ ev ∈ o.trace, ChainEvent.isSend ev = false) ∧
      (logHarvestingResults env.testMode o).length = hs.length ∧
      ∀ line ∈ logHarvestingResults env.testMode o, line.isSuccess = true := by
  intro env hs o hTest hRun
  unfold doHarvesting at hRun
  cases hBase : env.getTransactionCount env.walletAddress with
  | error e =>
    rw [hBase] at hRun
    exact absurd hRun (by simp)
  | ok base =>
    rw [hBase] at hRun
    have ho := Except.ok.inj hRun
    subst ho
    rw [allSettledMap_testMode env base hTest hs 0]
    have hMaps : (hs.map (fun _ => (Settled.fulfilled none, ([] : List ChainEvent)))).map
        Prod.snd = hs.map (fun _ => ([] : List ChainEvent)) := by
      simp
    refine ⟨?_, ?_, ?_⟩
    · intro ev hEv
      simp only [hMaps, flatten_map_nil] at hEv
      rcases List.mem_cons.1 hEv with hEq | hTail
      · rw [hEq]; rfl
      · simp at hTail
    · simp [logHarvestingResults, hTest]
    · intro line hLine
      simp only [logHarvestingResults] at hLine
      obtain ⟨p, hpMem, hpEq⟩ := List.mem_map.1 hLine
      have hmem1 := (List.of_mem_zip hpMem).1
      rw [List.map_map] at hmem1
      obtain ⟨a, -, ha⟩ := List.mem_map.1 hmem1
      rw [← hpEq, ← ha, hTest]
      rfl

/-- Witness for C7: a one-record batch in test mode reports one synthetic
success and performs no send. -/
theorem testMode_no_submissions_witness :
    (sampleEnvTest.testMode = true ∧
      doHarvesting sampleEnvTest [sampleH3] = .ok sampleOutcomeTest) ∧
    ((∀ ev ∈ sampleOutcomeTest.trace, ChainEvent.isSend ev = false) ∧
      (logHarvestingResults sampleEnvTest.testMode sampleOutcomeTest).length =
        [sampleH3].length ∧
      ∀ line ∈ logHarvestingResults sampleEnvTest.testMode sampleOutcomeTest,
        line.isSuccess = true) :=
  ⟨⟨by decide, by decide⟩,
   testMode_no_submissions sampleEnvTest [sampleH3] sampleOutcomeTest
     (by decide) (by decide)⟩

/-- Environment whose harvestable fetch rejects: stage 1 fails. -/
def sampleEnvFailFetch : ChainEnv :=
  { sampleEnv with getHarvestable := fun _ => .error .network }

/-- Environment whose pool reads reject: stage 3 fails. -/
def sampleEnvFailGain : ChainEnv :=
  { sampleEnv with getReserves := fun _ => .error .network }

/-- Environment whose gas estimation rejects: stage 4 fails. -/
def sampleEnvFailGas : ChainEnv :=
  { sampleEnv with estimateGas := fun _ _ => .error .network }

/-- The single-target contract cache used by the cycle witnesses. -/
def sampleContracts : List Target := [⟨["aa"], ["s0xaa"]⟩]

/-- C6: a single per-record fetch failure in an evaluation stage (1:
candidate data, 3: gains, 4: gas — stage 2 performs no fetch) makes the
whole cycle abort: the cycle's result is an error, exactly the failing
stage's tag is logged, and the executor performs no chain event at all, so
no record reaches the filter or executor. -/
theorem pipeline_fail_fast :
    ∀ (env : ChainEnv) (contracts : List Target),
      ((∃ s ∈ flattenStrategies contracts, ∃ e, mapStrategyToHarvestable env s = .error e) →
        (runCycle env contracts).logs = [.fetchingStrategyInfo] ∧
        (runCycle env contracts).trace = [] ∧
        ∃ e, (runCycle env contracts).result = .error e) ∧
      (∀ h0 h1, createHarvests env contracts = .ok h0 → addHarvestTx h0 = .ok h1 →
        (∃ h ∈ h1, ∃ e, addHarvestGainOne env h = .error e) →
        (runCycle env contracts).logs = [.addingHarvestGain] ∧
        (runCycle env contracts).trace = [] ∧
        ∃ e, (runCycle env contracts).result = .error e) ∧
      (∀ h0 h1 h2, createHarvests env contracts = .ok h0 → addHarvestTx h0 = .ok h1 →
        addHarvestGain env h1 = .ok h2 →
        (∃ h ∈ h2, ∃ e, addHarvestGasOne env h = .error e) →
        (runCycle env contracts).logs = [.addingHarvestGas] ∧
        (runCycle env contracts).trace = [] ∧
        ∃ e, (runCycle env contracts).result = .error e) := by
  intro env contracts
  refine ⟨?_, ?_, ?_⟩
  · intro hFail
    obtain ⟨e, hErr⟩ := promiseAll_error (mapStrategyToHarvestable env)
      (flattenStrategies contracts) hFail
    have hc : createHarvests env contracts = .error e := hErr
    unfold runCycle
    rw [hc]
    exact ⟨rfl, rfl, e, rfl⟩
  · intro h0 h1 hok0 hok1 hFail
    obtain ⟨e, hErr⟩ := promiseAll_error (addHarvestGainOne env) h1 hFail
    have hg : addHarvestGain env h1 = .error e := hErr
    simp only [runCycle, hok0, hok1, hg]
    exact ⟨trivial, trivial, e, rfl⟩
  · intro h0 h1 h2 hok0 hok1 hok2 hFail
    obtain ⟨e, hErr⟩ := promiseAll_error (addHarvestGasOne env) h2 hFail
    have hg : addHarvestGas env h2 = .error e := hErr
    simp only [runCycle, hok0, hok1, hok2, hg]
    exact ⟨trivial, trivial, e, rfl⟩

/-- Witness for C6: one cycle per failing stage, each aborting with its own
stage tag, an error result and an empty executor trace. -/
theorem pipeline_fail_fast_witness :
    ((runCycle sampleEnvFailFetch sampleContracts).logs = [.fetchingStrategyInfo] ∧
      (runCycle sampleEnvFailFetch sampleContracts).trace = [] ∧
      ∃ e, (runCycle sampleEnvFailFetch sampleContracts).result = .error e) ∧
    ((runCycle sampleEnvFailGain sampleContracts).logs = [.addingHarvestGain] ∧
      (runCycle sampleEnvFailGain sampleContracts).trace = [] ∧
      ∃ e, (runCycle sampleEnvFailGain sampleContracts).result = .error e) ∧
    ((runCycle sampleEnvFailGas sampleContracts).logs = [.addingHarvestGas] ∧
      (runCycle sampleEnvFailGas sampleContracts).trace = [] ∧
      ∃ e, (runCycle sampleEnvFailGas sampleContracts).result = .error e) :=
  ⟨(pipeline_fail_fast sampleEnvFailFetch sampleContracts).1
    ⟨"s0xaa", by decide, .network, by decide⟩,
   (pipeline_fail_fast sampleEnvFailGain sampleContracts).2.1
     [sampleH0] [sampleH1] (by decide) (by decide)
     ⟨sampleH1, by decide, .network, by decide⟩,
   (pipeline_fail_fast sampleEnvFailGas sampleContracts).2.2
     [sampleH0] [sampleH1] [sampleH2] (by decide) (by decide) (by decide)
     ⟨sampleH2, by decide, .network, by decide⟩⟩

/-- C2 counterexample: a pipeline-stage failure does terminate the process —
`handleError` schedules `process.exit(1)` (after a 1000 ms stderr flush
delay) for the error of the failed sample cycle, rather than only logging
and letting the next scheduled cycle run. -/
theorem handleError_schedules_process_exit :
    loop sampleEnvFailFetch sampleContracts = some ⟨.network, some (1000, 1)⟩ ∧
    (handleError .network).exit ≠ none := by
  exact ⟨by decide, by decide⟩

/-- C2 amended: when a discovery or pipeline-stage failure surfaces from
the cycle's promise chain, the error is logged and the process is
terminated: `handleError` receives it and schedules `process.exit(1)`
after a 1000 ms flush delay. -/
theorem cycle_failure_logs_and_exits :
    ∀ (env : ChainEnv) (contracts : List Target) (e : Err),
      (runCycle env contracts).result = .error e →
      loop env contracts = some ⟨e, some (1000, 1)⟩ := by
  intro env contracts e h
  simp [loop, h, handleError]

/-- Witness for the amended C2 at the failing sample cycle. -/
theorem cycle_failure_logs_and_exits_witness :
    (runCycle sampleEnvFailFetch sampleContracts).result = .error .network ∧
    loop sampleEnvFailFetch sampleContracts = some ⟨.network, some (1000, 1)⟩ :=
  ⟨by decide,
   cycle_failure_logs_and_exits sampleEnvFailFetch sampleContracts .network (by decide)⟩

end SnowHarvester
